import Mathlib

/-!
Verification of the finance-reconciliation core and related behaviour of the
tagata-dental clinic application (src/app.py, src/utils_finance.py).

The MongoDB aggregation pipelines and the Python route code are shallowly
embedded as pure Lean functions over explicit lists of documents:

* a treatments collection is a `List Treatment`, a patients collection a
  `List Patient`;
* a loosely-typed stored amount field is an `Amount` (absent, numeric, or a
  non-numeric BSON value such as a string);
* the pipeline operator `{$ifNull: [x, 0]}` followed by `$sum` coerces an
  absent field to 0 while `$sum` skips non-numeric values, modelled by
  `sumVal`; the same `$ifNull` followed by `$subtract` instead raises when
  the operand is non-numeric, modelled by `subtractArg` returning `Except`;
* `ObjectId` values are modelled by their 24-hex-digit string form;
  `$toObjectId` on a malformed string raises;
* fallible pipelines return `Except String`, mirroring a raised
  `OperationFailure`;
* calendar dates inside documents are the stored ISO `YYYY-MM-DD` strings
  compared lexically, exactly as the `$gte`/`$lte` range match does.
-/

/-- Lexicographic comparison of character lists by code point, the order
MongoDB uses for the string range match on the `date` field. -/
def lexLe : List Char → List Char → Bool
  | [], _ => true
  | _ :: _, [] => false
  | a :: as, b :: bs =>
    if a.toNat < b.toNat then true
    else if b.toNat < a.toNat then false
    else lexLe as bs

/-- String comparison used by the `date: {$gte: .., $lte: ..}` match. -/
def strLe (a b : String) : Bool := lexLe a.data b.data

/-- Whitespace test used by the trimming operations (`str.strip`, `$trim`). -/
def isWs (c : Char) : Bool := c = ' ' || c = '\t' || c = '\n' || c = '\r'

/-- Strip leading and trailing whitespace from a character list. -/
def trimChars (l : List Char) : List Char :=
  ((l.dropWhile isWs).reverse.dropWhile isWs).reverse

/-- Keep the first occurrence of each element, dropping later duplicates;
`seen` accumulates the elements already emitted. -/
def dedupFirstAux {α : Type} [DecidableEq α] : List α → List α → List α
  | _, [] => []
  | seen, a :: as =>
    if a ∈ seen then dedupFirstAux seen as
    else a :: dedupFirstAux (a :: seen) as

/-- Remove duplicates keeping first occurrences, the effect of Python
`dict.fromkeys` and of grouping keys in first-appearance order. -/
def dedupFirst {α : Type} [DecidableEq α] (l : List α) : List α :=
  dedupFirstAux [] l

/-- Apply a fallible projection to every document in order, aborting the
whole aggregation at the first error, as the store does when a pipeline
stage raises on some document. -/
def mapME {α β : Type} (f : α → Except String β) : List α → Except String (List β)
  | [] => .ok []
  | a :: as => do
    let b ← f a
    let bs ← mapME f as
    pure (b :: bs)

/-- A loosely-typed stored amount field (`fee`, `paid`). `missing` covers an
absent or null field, `num` a numeric value (amounts are modelled as
integers), `nonnum` any non-numeric BSON value, tagged for error messages. -/
inductive Amount where
  | missing
  | num (n : Int)
  | nonnum (tag : String)
deriving Repr, DecidableEq

/-- Value contributed to `{$sum: {$ifNull: [x, 0]}}`: `$ifNull` turns an
absent field into 0, and `$sum` skips non-numeric values, so a non-numeric
amount also contributes 0. -/
def sumVal : Amount → Int
  | .missing => 0
  | .num n => n
  | .nonnum _ => 0

/-- Value of `{$ifNull: [x, 0]}` when fed to `$subtract`: an absent field
becomes 0, but a non-numeric value makes `$subtract` raise, aborting the
aggregation. -/
def subtractArg : Amount → Except String Int
  | .missing => .ok 0
  | .num n => .ok n
  | .nonnum tag => .error ("$subtract only supports numeric types, got " ++ tag)

/-- Is the amount safe for the `$subtract`-based pipelines? -/
def amount_ok : Amount → Bool
  | .nonnum _ => false
  | _ => true

/-- The `patient_id` field of a treatment: either a genuine ObjectId
(modelled by its 24-hex-digit string) or a loose string representation. -/
inductive PatientRef where
  | oid (s : String)
  | strId (s : String)
deriving Repr, DecidableEq

/-- Hex digit test by code point. -/
def isHexDigitChar (c : Char) : Bool :=
  (48 ≤ c.toNat && c.toNat ≤ 57) ||
  (97 ≤ c.toNat && c.toNat ≤ 102) ||
  (65 ≤ c.toNat && c.toNat ≤ 70)

/-- A string is convertible by `$toObjectId` iff it is 24 hex digits. -/
def is_object_id_hex (s : String) : Bool :=
  s.data.length == 24 && s.data.all isHexDigitChar

/-- The `pid` projection of the pipelines:
`{$cond: [{$eq: [{$type: "$patient_id"}, "objectId"]}, "$patient_id",
{$toObjectId: "$patient_id"}]}`. An ObjectId passes through; a string is
converted, and `$toObjectId` raises on a malformed string. -/
def to_object_id : PatientRef → Except String String
  | .oid s => .ok s
  | .strId s =>
    if is_object_id_hex s then .ok s
    else .error ("$toObjectId failed on " ++ s)

/-- Does the reference normalize without raising? -/
def ref_ok : PatientRef → Bool
  | .oid _ => true
  | .strId s => is_object_id_hex s

/-- One treatment/ledger document. Optional fields model field absence. -/
structure Treatment where
  patient_id : PatientRef
  fee : Amount := .missing
  paid : Amount := .missing
  is_deleted : Option Bool := none
  status : Option String := none
  date : Option String := none
  dentist : Option String := none
deriving Repr, DecidableEq

/-- One patient document; only the fields the finance pipelines read. -/
structure Patient where
  _id : String
  first_name : Option String := none
  last_name : Option String := none
deriving Repr, DecidableEq

/-- Both amount fields of the treatment are `$subtract`-safe. -/
def amounts_ok (t : Treatment) : Bool := amount_ok t.fee && amount_ok t.paid

/-- utils_finance._match_all_time:
`{"is_deleted": {"$ne": True}, "status": {"$ne": "void"}}`. A document
matches iff its soft-delete flag is not `true` (absent and `false` match)
and its status is not the string "void" (absent matches). -/
def match_all_time (t : Treatment) : Bool :=
  t.is_deleted ≠ some true && t.status ≠ some "void"

/-- utils_finance._match_period: the all-time conditions plus
`"date": {"$gte": d_from, "$lte": d_to}` (inclusive, lexical string
comparison; a document without a string date does not match). -/
def match_period (d_from d_to : String) (t : Treatment) : Bool :=
  t.is_deleted ≠ some true && t.status ≠ some "void" &&
    (match t.date with
     | some d => strLe d_from d && strLe d d_to
     | none => false)

/-- utils_finance.finance_totals_period: `$match` on the period predicate,
then one `$group` summing `$ifNull`-coerced `fee` and `paid`; an empty
result list yields `(0, 0)`. -/
def finance_totals_period (treatments : List Treatment)
    (d_from d_to : String) : Int × Int :=
  let res := treatments.filter (match_period d_from d_to)
  if res.isEmpty then (0, 0)
  else ((res.map fun t => sumVal t.fee).sum,
        (res.map fun t => sumVal t.paid).sum)

/-- utils_finance.finance_totals_all_time: `$match` on the all-time
predicate, then the same `$group`; an empty result yields `(0, 0)`. -/
def finance_totals_all_time (treatments : List Treatment) : Int × Int :=
  let res := treatments.filter match_all_time
  if res.isEmpty then (0, 0)
  else ((res.map fun t => sumVal t.fee).sum,
        (res.map fun t => sumVal t.paid).sum)

/-- The `bal` projection of the outstanding pipelines:
`{$max: [{$subtract: [{$ifNull: ["$fee", 0]}, {$ifNull: ["$paid", 0]}]}, 0]}`.
Raises when either amount is non-numeric. -/
def bal_of (t : Treatment) : Except String Int := do
  let f ← subtractArg t.fee
  let p ← subtractArg t.paid
  pure (max (f - p) 0)

/-- utils_finance.outstanding_all_time: `$match` all-time, `$project` the
clamped per-document balance, `$group` summing it; an empty match yields 0,
and a non-numeric amount in any matched document aborts the aggregation. -/
def outstanding_all_time (treatments : List Treatment) : Except String Int := do
  let matched := treatments.filter match_all_time
  let bals ← mapME bal_of matched
  pure (if matched.isEmpty then 0 else bals.sum)

/-- Month key of utils_finance.series_monthly:
`{$concat: [{$substr: ["$date", 0, 7]}, "-01"]}`. -/
def monthKey (d : String) : String := String.mk (d.data.take 7 ++ "-01".data)

/-- utils_finance.series_daily: `$match` on the period, `$group` by the
stored `date` string summing the `$ifNull`-coerced amounts, `$sort` by key
ascending. Matched documents always carry a string date. -/
def series_daily (treatments : List Treatment)
    (d_from d_to : String) : List (String × Int × Int) :=
  let m := treatments.filter (match_period d_from d_to)
  let keys := dedupFirst (m.map fun t => t.date.getD "")
  (keys.insertionSort fun a b => strLe a b = true).map fun k =>
    let g := m.filter fun t => t.date.getD "" == k
    (k, (g.map fun t => sumVal t.fee).sum, (g.map fun t => sumVal t.paid).sum)

/-- utils_finance.series_monthly: like series_daily but grouped by the
month key and sorted by it ascending. -/
def series_monthly (treatments : List Treatment)
    (d_from d_to : String) : List (String × Int × Int) :=
  let m := treatments.filter (match_period d_from d_to)
  let keys := dedupFirst (m.map fun t => monthKey (t.date.getD ""))
  (keys.insertionSort fun a b => strLe a b = true).map fun k =>
    let g := m.filter fun t => monthKey (t.date.getD "") == k
    (k, (g.map fun t => sumVal t.fee).sum, (g.map fun t => sumVal t.paid).sum)

/-- utils_finance.series_dentist: grouped by
`{$ifNull: ["$dentist", "Unknown"]}` and sorted by billed descending. -/
def series_dentist (treatments : List Treatment)
    (d_from d_to : String) : List (String × Int × Int) :=
  let m := treatments.filter (match_period d_from d_to)
  let keys := dedupFirst (m.map fun t => t.dentist.getD "Unknown")
  let rows := keys.map fun k =>
    let g := m.filter fun t => t.dentist.getD "Unknown" == k
    (k, (g.map fun t => sumVal t.fee).sum, (g.map fun t => sumVal t.paid).sum)
  rows.insertionSort fun a b => b.2.1 ≤ a.2.1

/-- One row of the top_outstanding_by_patient output. -/
structure OutstandingEntry where
  name : String
  balance : Int
deriving Repr, DecidableEq

/-- The `$project` stage of top_outstanding_by_patient: normalized `pid`
and clamped `bal` for one document; raises on a malformed string reference
or a non-numeric amount. -/
def project_pid_bal (t : Treatment) : Except String (String × Int) := do
  let pid ← to_object_id t.patient_id
  let bal ← bal_of t
  pure (pid, bal)

/-- The `$group` stage: one row per distinct pid (in first-appearance
order), carrying the sum of the clamped balances of its documents. -/
def group_balances (pairs : List (String × Int)) : List (String × Int) :=
  (dedupFirst (pairs.map Prod.fst)).map fun k =>
    (k, ((pairs.filter fun pb => pb.1 == k).map Prod.snd).sum)

/-- The `$lookup`/`$addFields`/final `$project` stages for one grouped row:
join the first patient document with a matching `_id`, build
`{$trim: {$concat: [{$ifNull: first_name, ""}, " ", {$ifNull: last_name, ""}]}}`
as the name, and finally `{$ifNull: ["$name", "Unknown"]}`. The `$trim`
always produces a string (possibly empty), so the name field entering the
last `$ifNull` is never null; the `some (...)` below records exactly that. -/
def display_entry (patients : List Patient) (kb : String × Int) : OutstandingEntry :=
  let p := patients.find? fun q => q._id == kb.1
  let fn := (p.bind Patient.first_name).getD ""
  let ln := (p.bind Patient.last_name).getD ""
  let nm : Option String := some (String.mk (trimChars (fn ++ " " ++ ln).data))
  { name := nm.getD "Unknown", balance := kb.2 }

/-- utils_finance.top_outstanding_by_patient: `$match` all-time, `$project`
the normalized `pid` and clamped `bal`, `$group` by `pid` summing `bal`,
`$sort` by balance descending, `$limit`, then the `$lookup`-based display
stages. There is no `$match` on `balance` after the `$group`. -/
def top_outstanding_by_patient (treatments : List Treatment)
    (patients : List Patient) (limit : Nat) :
    Except String (List OutstandingEntry) := do
  let matched := treatments.filter match_all_time
  let projected ← mapME project_pid_bal matched
  let grouped := group_balances projected
  let sorted := grouped.insertionSort fun a b => b.2 ≤ a.2
  let top := sorted.take limit
  pure (top.map (display_entry patients))

/-- The value of the `has_allergy` form field as `_parse_allergies` may
receive it: a posted string, a boolean, or absent (`None`). -/
inductive HasAllergyVal where
  | vstr (s : String)
  | vbool (b : Bool)
  | vnone
deriving Repr, DecidableEq

/-- Replace every semicolon with a comma: `raw.replace(";", ",")`. -/
def replaceSemis (l : List Char) : List Char :=
  l.map fun c => if c = ';' then ',' else c

/-- Split a character list on commas: `raw.split(",")`. -/
def splitOnComma : List Char → List (List Char)
  | [] => [[]]
  | c :: cs =>
    let rest := splitOnComma cs
    if c = ',' then [] :: rest
    else match rest with
      | [] => [[c]]
      | g :: gs => (c :: g) :: gs

/-- The normalized allergy item list of app.py lines 587-589: strip the raw
text, replace semicolons by commas, split on commas, strip each piece, drop
empty pieces, and deduplicate keeping first occurrences. -/
def allergy_items (raw : List Char) : List String :=
  let items := ((splitOnComma (replaceSemis (trimChars raw))).map trimChars).filter
    fun s => !s.isEmpty
  (dedupFirst items).map String.mk

/-- app.py _parse_allergies: the flag is set iff the posted value is the
string "on" or the boolean `True`; the stored list is the normalized item
list when the flag is set and empty otherwise. An absent text field is
treated as the empty string (`allergies_raw or ""`). -/
def parse_allergies (has_allergy_val : HasAllergyVal)
    (allergies_raw : Option String) : Bool × List String :=
  let has := has_allergy_val == .vstr "on" || has_allergy_val == .vbool true
  let items := allergy_items (allergies_raw.getD "").data
  (has, if has then items else [])

/-- app.py finance_report totals (lines 1126-1128): sums `t.get("fee", 0)`
and `t.get("paid", 0)` over `treatments_col.find()` with NO validity filter,
and the pending balance is the unclamped difference. A non-numeric stored
amount would make the Python `sum` raise a TypeError, modelled as an error. -/
def py_get_amount : Amount → Except String Int
  | .missing => .ok 0
  | .num n => .ok n
  | .nonnum tag => .error ("TypeError: unsupported operand, got " ++ tag)

/-- app.py finance_report (route /finance-report): `(total_fee, total_paid,
pending_balance)` computed over every document of the collection. -/
def finance_report_totals (treatments : List Treatment) :
    Except String (Int × Int × Int) := do
  let fees ← mapME (fun t => py_get_amount t.fee) treatments
  let paids ← mapME (fun t => py_get_amount t.paid) treatments
  let total_fee := fees.sum
  let total_paid := paids.sum
  pure (total_fee, total_paid, total_fee - total_paid)

/-- app.py dashboard, finance section (lines 470-485): the all-time totals
pipeline over `MATCH_ALL` (identical to `_match_all_time`), with
`pending_balance = max(total_fee - total_paid, 0)` clamped only after the
sums. The `or 0` coalescing in the source maps a falsy 0 to 0 and is the
identity on integers. -/
def dashboard_finance (treatments : List Treatment) : Int × Int × Int :=
  let sums := treatments.filter match_all_time
  let total_fee := if sums.isEmpty then 0 else (sums.map fun t => sumVal t.fee).sum
  let total_paid := if sums.isEmpty then 0 else (sums.map fun t => sumVal t.paid).sum
  (total_fee, total_paid, max (total_fee - total_paid) 0)

/-- app.py finance_reports (route /reports/finance, lines 1662-1670): the
query-string window defaults. Calendar days are modelled as integers and
`timedelta(days=30)` as subtraction of 30; an absent or empty query
parameter is `none`. `qs_to` defaults to today, and `qs_from` defaults to
thirty days before the (possibly defaulted) `qs_to`. -/
def default_window (qs_from qs_to : Option Int) (today : Int) : Int × Int :=
  let to_d := qs_to.getD today
  let from_d := qs_from.getD (to_d - 30)
  (from_d, to_d)

/-- app.py finance_dashboard (route /finance, lines 1702-1717): the billed
and collected KPIs come from the period totals only when BOTH query bounds
are supplied; otherwise the all-time totals are used (and the series are
left empty). -/
def finance_dashboard_kpis (treatments : List Treatment)
    (qs_from qs_to : Option String) : Int × Int :=
  match qs_from, qs_to with
  | some f, some tto => finance_totals_period treatments f tto
  | _, _ => finance_totals_all_time treatments

/-- app.py next_invoice_number: one `find_one_and_update` with `$inc: 1`,
`upsert=True` and `ReturnDocument.AFTER` on the singleton counter document;
a single atomic step of the store. The state is the counter document
(`none` when it does not exist yet, in which case the upsert creates it with
`seq = 1`); the call returns the new state and the returned sequence. -/
def next_invoice_number (counter : Option Nat) : Option Nat × Nat :=
  let seq := counter.getD 0 + 1
  (some seq, seq)

/-- Counter state after `k` completed next_invoice_number calls. -/
def counters_after (st : Option Nat) : Nat → Option Nat
  | 0 => st
  | k + 1 => (next_invoice_number (counters_after st k)).1

/-! ## Helper lemmas -/

theorem except_bind_ok {α β : Type} (a : α) (f : α → Except String β) :
    (Except.ok a >>= f) = f a := rfl

theorem except_bind_error {α β : Type} (e : String) (f : α → Except String β) :
    ((Except.error e : Except String α) >>= f) = Except.error e := rfl

theorem except_pure_eq_ok {α : Type} (a : α) :
    (pure a : Except String α) = Except.ok a := rfl

/-- mapME succeeds with the pointwise pure results when every element
succeeds. -/
theorem mapME_ok_of_forall {α β : Type} (f : α → Except String β) (g : α → β) :
    ∀ l : List α, (∀ a ∈ l, f a = .ok (g a)) → mapME f l = .ok (l.map g)
  | [], _ => rfl
  | a :: as, h => by
    have ha : f a = .ok (g a) := h a (List.mem_cons_self a as)
    have hrest := mapME_ok_of_forall f g as fun x hx => h x (List.mem_cons_of_mem a hx)
    simp [mapME, ha, hrest, except_bind_ok, except_pure_eq_ok]

/-- The clamped balance of a treatment with safe amounts. -/
theorem bal_of_ok (t : Treatment) (h : amounts_ok t = true) :
    bal_of t = .ok (max (sumVal t.fee - sumVal t.paid) 0) := by
  rcases t with ⟨pid, fee, paid, d, s, dt, de⟩
  cases fee <;> cases paid <;>
    simp_all [amounts_ok, amount_ok, bal_of, subtractArg, sumVal,
      except_bind_ok, except_pure_eq_ok]

/-- When every amount is safe, outstanding_all_time is the sum of per-record
clamped balances over the valid records. -/
theorem outstanding_eq_sum (treatments : List Treatment)
    (h : ∀ t ∈ treatments, amounts_ok t = true) :
    outstanding_all_time treatments =
      .ok (((treatments.filter match_all_time).map
        fun t => max (sumVal t.fee - sumVal t.paid) 0).sum) := by
  have hm : mapME bal_of (treatments.filter match_all_time) =
      .ok ((treatments.filter match_all_time).map
        fun t => max (sumVal t.fee - sumVal t.paid) 0) :=
    mapME_ok_of_forall _ _ _ fun t ht =>
      bal_of_ok t (h t (List.mem_filter.mp ht).1)
  simp only [outstanding_all_time, hm, except_bind_ok, except_pure_eq_ok]
  rcases hf : treatments.filter match_all_time with _ | ⟨a, as⟩ <;> simp [hf]

/-! ## Sample documents used by witnesses and counterexamples -/

/-- A well-formed ObjectId hex string. -/
def sampleOid : String := "507f1f77bcf86cd799439011"

/-- A second well-formed ObjectId hex string. -/
def sampleOid2 : String := "507f1f77bcf86cd799439012"

/-- Valid treatment, fee 1000, paid 400 (spec section 8 example). -/
def tFee1000 : Treatment := { patient_id := .oid sampleOid, fee := .num 1000, paid := .num 400 }

/-- Valid treatment, fully paid. -/
def tPaid500 : Treatment := { patient_id := .oid sampleOid, fee := .num 500, paid := .num 500 }

/-- Void treatment, fee 200 (spec section 8 example). -/
def tVoid200 : Treatment :=
  { patient_id := .oid sampleOid, fee := .num 200, paid := .num 0, status := some "void" }

/-- Valid overpaid treatment: paid exceeds fee by 100. -/
def tOver : Treatment := { patient_id := .oid sampleOid2, fee := .num 0, paid := .num 100 }

/-- Valid treatment, fee 50, unpaid. -/
def tFee50 : Treatment := { patient_id := .oid sampleOid2, fee := .num 50, paid := .num 0 }

/-! ## Claim theorems -/

/-- C2: finance_totals_all_time returns billed equal to the sum of the
(coerced) fee fields and collected equal to the sum of the paid fields over
exactly the records satisfying the validity predicate (soft-delete flag not
true, status not "void"); records outside that set contribute nothing, so
restricting the collection to its valid records leaves the totals
unchanged. -/
theorem finance_totals_all_time_sums_valid (treatments : List Treatment) :
    finance_totals_all_time treatments =
      (((treatments.filter match_all_time).map fun t => sumVal t.fee).sum,
       ((treatments.filter match_all_time).map fun t => sumVal t.paid).sum) ∧
    finance_totals_all_time treatments =
      finance_totals_all_time (treatments.filter match_all_time) := by
  constructor
  · unfold finance_totals_all_time
    rcases hf : treatments.filter match_all_time with _ | ⟨a, as⟩ <;> simp [hf]
  · unfold finance_totals_all_time
    rw [List.filter_filter]
    simp

/-- C3: outstanding_all_time is the sum over valid records of the per-record
clamped balance max(fee - paid, 0) (amounts taken as their coerced numeric
values, for records whose stored amounts are numeric or absent), and a valid
overpaid record (paid at least fee) contributes exactly 0: inserting it
leaves the total unchanged, so it never offsets another record's
shortfall. -/
theorem outstanding_all_time_clamps_per_record (treatments : List Treatment)
    (h : ∀ t ∈ treatments, amounts_ok t = true) :
    outstanding_all_time treatments =
      .ok (((treatments.filter match_all_time).map
        fun t => max (sumVal t.fee - sumVal t.paid) 0).sum) ∧
    ∀ t : Treatment, amounts_ok t = true → sumVal t.fee ≤ sumVal t.paid →
      outstanding_all_time (t :: treatments) = outstanding_all_time treatments := by
  refine ⟨outstanding_eq_sum treatments h, fun t ht hle => ?_⟩
  have h2 : ∀ r ∈ t :: treatments, amounts_ok r = true := by
    intro r hr
    rcases List.mem_cons.mp hr with rfl | hr2
    · exact ht
    · exact h r hr2
  rw [outstanding_eq_sum (t :: treatments) h2, outstanding_eq_sum treatments h]
  by_cases hm : match_all_time t = true
  · rw [List.filter_cons_of_pos hm, List.map_cons, List.sum_cons,
      max_eq_right (by omega : sumVal t.fee - sumVal t.paid ≤ 0)]
    simp
  · rw [List.filter_cons_of_neg hm]

/-- Witness for C3 at the spec section 8 records, plus an overpaid insertion
leaving the total unchanged. -/
theorem outstanding_all_time_clamps_per_record_witness :
    outstanding_all_time [tFee1000, tPaid500, tVoid200] = .ok 600 ∧
    outstanding_all_time (tOver :: [tFee1000, tPaid500, tVoid200]) =
      outstanding_all_time [tFee1000, tPaid500, tVoid200] :=
  ⟨((outstanding_all_time_clamps_per_record [tFee1000, tPaid500, tVoid200]
      (by decide)).1).trans rfl,
   (outstanding_all_time_clamps_per_record [tFee1000, tPaid500, tVoid200]
      (by decide)).2 tOver (by decide) (by decide)⟩

/-- C9: adding a valid record with fee at least paid never decreases
outstanding_all_time: whenever both aggregations succeed, the total over the
extended collection is at least the total over the original one. -/
theorem outstanding_monotone_under_insert (treatments : List Treatment)
    (t : Treatment) (h : ∀ r ∈ treatments, amounts_ok r = true)
    (ht : amounts_ok t = true) (hv : match_all_time t = true)
    (hfp : sumVal t.paid ≤ sumVal t.fee) :
    ∀ o o2 : Int, outstanding_all_time treatments = .ok o →
      outstanding_all_time (t :: treatments) = .ok o2 → o ≤ o2 := by
  intro o o2 h1 h2
  have h2all : ∀ r ∈ t :: treatments, amounts_ok r = true := by
    intro r hr
    rcases List.mem_cons.mp hr with rfl | hr2
    · exact ht
    · exact h r hr2
  rw [outstanding_eq_sum treatments h] at h1
  rw [outstanding_eq_sum (t :: treatments) h2all,
    List.filter_cons_of_pos hv, List.map_cons, List.sum_cons] at h2
  injection h1 with h1
  injection h2 with h2
  have hb : 0 ≤ max (sumVal t.fee - sumVal t.paid) 0 := le_max_right _ _
  omega

/-- Witness for C9: adding a valid half-collected record raises the
outstanding total from 600 to 650. -/
theorem outstanding_monotone_under_insert_witness : (600 : Int) ≤ 650 :=
  outstanding_monotone_under_insert [tFee1000, tPaid500, tVoid200] tFee50
    (by decide) (by decide) (by decide) (by decide) 600 650 rfl rfl

/-- Replacing the head document by one with the same validity predicate
value and the same coerced amounts leaves the all-time totals unchanged. -/
theorem totals_cons_congr (S : List Treatment) (t1 t2 : Treatment)
    (hm : match_all_time t1 = match_all_time t2)
    (hf : sumVal t1.fee = sumVal t2.fee) (hp : sumVal t1.paid = sumVal t2.paid) :
    finance_totals_all_time (t1 :: S) = finance_totals_all_time (t2 :: S) := by
  unfold finance_totals_all_time
  rw [List.filter_cons, List.filter_cons, hm]
  by_cases h : match_all_time t2 = true
  · simp [h, hf, hp]
  · simp [h]

/-- C7 counterexample: a valid record whose stored fee is a non-numeric
value makes outstanding_all_time abort with a `$subtract` error instead of
coercing the amount to zero. -/
theorem outstanding_raises_on_nonnumeric_cex :
    outstanding_all_time
      [{ patient_id := .oid sampleOid, fee := .nonnum "string", paid := .num 0 }] =
      .error "$subtract only supports numeric types, got string" ∧
    ∀ n : Int,
      (Except.error "$subtract only supports numeric types, got string" :
        Except String Int) ≠ .ok n :=
  ⟨rfl, fun _ h => Except.noConfusion h⟩

/-- C7 as amended: every aggregation yields zero totals or an empty series
on an empty matching set; an absent or non-numeric amount contributes zero
to the billed/collected sums (replacing it by a literal zero changes
nothing); but a non-numeric amount on a valid record makes the
`$subtract`-based outstanding aggregation raise rather than coerce. -/
theorem aggregations_empty_zero_and_coercion :
    finance_totals_all_time [] = (0, 0) ∧
    (∀ df dt2 : String, finance_totals_period [] df dt2 = (0, 0)) ∧
    outstanding_all_time [] = .ok 0 ∧
    (∀ df dt2 : String, series_daily [] df dt2 = [] ∧
      series_monthly [] df dt2 = [] ∧ series_dentist [] df dt2 = []) ∧
    (∀ (ps : List Patient) (n : Nat), top_outstanding_by_patient [] ps n = .ok []) ∧
    (∀ (S : List Treatment) (t : Treatment) (tag : String),
      finance_totals_all_time ({ t with fee := .nonnum tag } :: S) =
        finance_totals_all_time ({ t with fee := .num 0 } :: S) ∧
      finance_totals_all_time ({ t with fee := .missing } :: S) =
        finance_totals_all_time ({ t with fee := .num 0 } :: S)) ∧
    (∀ (S : List Treatment) (t : Treatment) (tag : String),
      match_all_time t = true → t.fee = .nonnum tag →
      ∃ e, outstanding_all_time (t :: S) = .error e) := by
  refine ⟨rfl, fun _ _ => rfl, rfl, fun _ _ => ⟨rfl, rfl, rfl⟩, fun ps n => ?_,
    fun S t tag => ⟨totals_cons_congr S _ _ rfl rfl rfl,
      totals_cons_congr S _ _ rfl rfl rfl⟩,
    fun S t tag hm hfee => ?_⟩
  · simp [top_outstanding_by_patient, mapME, group_balances, dedupFirst,
      dedupFirstAux, List.take_nil, except_bind_ok, except_pure_eq_ok]
  · refine ⟨"$subtract only supports numeric types, got " ++ tag, ?_⟩
    unfold outstanding_all_time
    rw [List.filter_cons_of_pos hm]
    simp [mapME, bal_of, hfee, subtractArg, except_bind_error]

/-- Witness for the amended C7: the coercion equality and the raising
branch at concrete inputs. -/
theorem aggregations_empty_zero_and_coercion_witness :
    finance_totals_all_time [{ tFee1000 with fee := .nonnum "x" }] =
      finance_totals_all_time [{ tFee1000 with fee := .num 0 }] ∧
    ∃ e, outstanding_all_time [{ tFee1000 with fee := .nonnum "x" }] = .error e :=
  ⟨(aggregations_empty_zero_and_coercion.2.2.2.2.2.1 [] tFee1000 "x").1,
   aggregations_empty_zero_and_coercion.2.2.2.2.2.2 []
     { tFee1000 with fee := .nonnum "x" } "x" (by decide) rfl⟩

/-- The normalized grouping key both representations reduce to. -/
def ref_key : PatientRef → String
  | .oid s => s
  | .strId s => s

/-- Normalization succeeds with the underlying key on well-formed
references. -/
theorem to_object_id_ok (p : PatientRef) (h : ref_ok p = true) :
    to_object_id p = .ok (ref_key p) := by
  cases p <;> simp_all [ref_ok, to_object_id, ref_key]

/-- The pure value of the `$project` stage on a well-formed document. -/
theorem project_pid_bal_ok (t : Treatment) (ham : amounts_ok t = true)
    (href : ref_ok t.patient_id = true) :
    project_pid_bal t =
      .ok (ref_key t.patient_id, max (sumVal t.fee - sumVal t.paid) 0) := by
  unfold project_pid_bal
  rw [to_object_id_ok t.patient_id href, except_bind_ok, bal_of_ok t ham,
    except_bind_ok]
  rfl

/-- Every balance produced by the `$group` stage over clamped projections is
non-negative. -/
theorem group_balances_nonneg (pairs : List (String × Int))
    (h : ∀ pb ∈ pairs, 0 ≤ pb.2) :
    ∀ kb ∈ group_balances pairs, 0 ≤ kb.2 := by
  intro kb hkb
  rcases List.mem_map.mp hkb with ⟨k, _, rfl⟩
  refine List.sum_nonneg fun x hx => ?_
  rcases List.mem_map.mp hx with ⟨pb, hpb, rfl⟩
  exact h pb (List.mem_filter.mp hpb).1

/-- C4 as amended: on documents with safe amounts and well-formed patient
references, top_outstanding_by_patient returns at most `limit` entries,
sorted by descending per-patient clamped balance, every entry has balance
greater than or equal to 0 (zero-balance patients are NOT filtered out and
may appear), and the two patient_id representations normalize to the same
grouping key. -/
theorem top_outstanding_shape (treatments : List Treatment)
    (patients : List Patient) (limit : Nat)
    (ham : ∀ t ∈ treatments, amounts_ok t = true)
    (href : ∀ t ∈ treatments, ref_ok t.patient_id = true) :
    (∃ l, top_outstanding_by_patient treatments patients limit = .ok l ∧
      l.length ≤ limit ∧
      l.Pairwise (fun a b => b.balance ≤ a.balance) ∧
      ∀ e ∈ l, 0 ≤ e.balance) ∧
    ∀ s : String, is_object_id_hex s = true →
      to_object_id (.oid s) = to_object_id (.strId s) := by
  constructor
  · have hmap : mapME project_pid_bal (treatments.filter match_all_time) =
        .ok ((treatments.filter match_all_time).map
          fun t => (ref_key t.patient_id, max (sumVal t.fee - sumVal t.paid) 0)) :=
      mapME_ok_of_forall _ _ _ fun t ht =>
        project_pid_bal_ok t (ham t (List.mem_filter.mp ht).1)
          (href t (List.mem_filter.mp ht).1)
    have heq : top_outstanding_by_patient treatments patients limit =
        .ok (List.map (display_entry patients) (List.take limit
          (List.insertionSort (fun a b => b.2 ≤ a.2)
            (group_balances (List.map
              (fun t => (ref_key t.patient_id,
                max (sumVal t.fee - sumVal t.paid) 0))
              (List.filter match_all_time treatments)))))) := by
      simp only [top_outstanding_by_patient, hmap, except_bind_ok,
        except_pure_eq_ok]
    refine ⟨_, heq, ?_, ?_, ?_⟩
    · rw [List.length_map]
      exact List.length_take_le _ _
    · have hsorted : List.Pairwise (fun (a b : String × Int) => b.2 ≤ a.2)
          (List.insertionSort (fun a b => b.2 ≤ a.2)
            (group_balances ((treatments.filter match_all_time).map
              fun t => (ref_key t.patient_id,
                max (sumVal t.fee - sumVal t.paid) 0)))) := by
        haveI : IsTotal (String × Int) (fun a b => b.2 ≤ a.2) :=
          ⟨fun a b => Int.le_total b.2 a.2⟩
        haveI : IsTrans (String × Int) (fun a b => b.2 ≤ a.2) :=
          ⟨fun _ _ _ h h2 => le_trans h2 h⟩
        exact List.sorted_insertionSort _ _
      have htake := hsorted.sublist (List.take_sublist limit _)
      exact htake.map _ fun a b h => h
    · intro e he
      rcases List.mem_map.mp he with ⟨kb, hkb, rfl⟩
      have hkb2 : kb ∈ List.insertionSort (fun a b => b.2 ≤ a.2)
          (group_balances ((treatments.filter match_all_time).map
            fun t => (ref_key t.patient_id,
              max (sumVal t.fee - sumVal t.paid) 0))) :=
        (List.take_sublist limit _).subset hkb
      have hkb3 := (List.perm_insertionSort
        (fun (a b : String × Int) => b.2 ≤ a.2) _).mem_iff.mp hkb2
      have hnn := group_balances_nonneg _ (fun pb hpb => by
        rcases List.mem_map.mp hpb with ⟨t, _, rfl⟩
        exact le_max_right _ _) kb hkb3
      exact hnn
  · intro s hs
    simp [to_object_id, hs]

/-- Witness for the amended C4 at one valid half-paid document and an empty
patients collection. -/
theorem top_outstanding_shape_witness :
    (∃ l, top_outstanding_by_patient [tFee1000] [] 10 = .ok l ∧
      l.length ≤ 10 ∧
      l.Pairwise (fun a b => b.balance ≤ a.balance) ∧
      ∀ e ∈ l, 0 ≤ e.balance) ∧
    ∀ s : String, is_object_id_hex s = true →
      to_object_id (.oid s) = to_object_id (.strId s) :=
  top_outstanding_shape [tFee1000] [] 10 (by decide) (by decide)

/-- C4 counterexample: a single fully-paid valid treatment produces an
entry with balance exactly 0, so not every returned entry has balance
strictly greater than 0. -/
theorem top_outstanding_zero_balance_cex :
    top_outstanding_by_patient [tPaid500] [] 10 =
      .ok [{ name := "", balance := 0 }] ∧
    ¬((0 : Int) > 0) :=
  ⟨rfl, by decide⟩

/-- C6: the display name of an unresolvable or blank-named patient reference
is the empty string, not "Unknown": the final `{$ifNull: ["$name", "Unknown"]}`
can never fire because `$trim` always returns a string. Moreover a malformed
string reference makes the whole aggregation raise through `$toObjectId`.
Three failing inputs: a well-formed string reference matching no patient, a
resolved patient whose name fields are blank, and a malformed string
reference. -/
theorem top_outstanding_unknown_fallback_dead :
    top_outstanding_by_patient
      [{ patient_id := .strId sampleOid2, fee := .num 100, paid := .num 0 }] [] 10 =
      .ok [{ name := "", balance := 100 }] ∧
    top_outstanding_by_patient
      [{ patient_id := .oid sampleOid2, fee := .num 100, paid := .num 0 }]
      [{ _id := sampleOid2, first_name := some " ", last_name := none }] 10 =
      .ok [{ name := "", balance := 100 }] ∧
    ("" : String) ≠ "Unknown" ∧
    top_outstanding_by_patient
      [{ patient_id := .strId "not-a-hex-id", fee := .num 100, paid := .num 0 }] [] 10 =
      .error "$toObjectId failed on not-a-hex-id" :=
  ⟨rfl, rfl, by decide, rfl⟩

/-- C1: the three views do NOT compute equal totals. The finance-report view
(app.py lines 1126-1128) sums every document of the collection with no
validity filter and leaves the pending balance unclamped, while the
dashboard and the finance-dashboard exclude void/soft-deleted records; and
even on all-valid data the dashboard clamps only the aggregate difference
while outstanding_all_time clamps per record. Evaluated at a single void
record (fee 200, paid 0) and at a valid pair containing an overpayment. -/
theorem finance_report_ignores_validity :
    finance_report_totals [tVoid200] = .ok (200, 0, 200) ∧
    dashboard_finance [tVoid200] = (0, 0, 0) ∧
    finance_totals_all_time [tVoid200] = (0, 0) ∧
    outstanding_all_time [tVoid200] = .ok 0 ∧
    (200 : Int) ≠ 0 ∧
    dashboard_finance [tFee1000, tOver] = (1000, 500, 500) ∧
    outstanding_all_time [tFee1000, tOver] = .ok 600 ∧
    (500 : Int) ≠ 600 :=
  ⟨rfl, rfl, rfl, rfl, by decide, rfl, rfl, by decide⟩

/-- C5 counterexample: with only the `from` bound supplied (day 5, today
day 100), finance_reports uses the window [5, 100], not the trailing
30 days [70, 100]. -/
theorem window_not_trailing_cex :
    default_window (some 5) none 100 = (5, 100) ∧
    ((5 : Int), (100 : Int)) ≠ ((100 : Int) - 30, (100 : Int)) :=
  ⟨rfl, by decide⟩

/-- C5 as amended: finance_reports defaults `to` to today and `from` to
thirty days before the resulting `to`; so only with neither bound supplied
is the window [today - 30, today]; with only `to` it is [to - 30, to] and
with only `from` it is [from, today]. The finance-dashboard view (/finance)
uses the period totals only when both bounds are supplied and otherwise
falls back to all-time totals. -/
theorem window_defaults_amended (today f tt : Int) (S : List Treatment)
    (ds : String) :
    default_window none none today = (today - 30, today) ∧
    default_window none (some tt) today = (tt - 30, tt) ∧
    default_window (some f) none today = (f, today) ∧
    default_window (some f) (some tt) today = (f, tt) ∧
    finance_dashboard_kpis S (some ds) none = finance_totals_all_time S ∧
    finance_dashboard_kpis S none (some ds) = finance_totals_all_time S ∧
    finance_dashboard_kpis S none none = finance_totals_all_time S :=
  ⟨rfl, rfl, rfl, rfl, rfl, rfl, rfl⟩

/-- The sequence value returned by the call that executes as the
(k+1)-th atomic step starting from an absent counter document. -/
theorem invoice_seq_val : ∀ k : Nat,
    (next_invoice_number (counters_after none k)).2 = k + 1 := by
  have hstate : ∀ k : Nat, (counters_after none k).getD 0 = k := by
    intro k
    induction k with
    | zero => rfl
    | succ n ih => simp [counters_after, next_invoice_number, ih]
  intro k
  simp [next_invoice_number, hstate k]

/-- C8: next_invoice_number is a single atomic increment-and-read on the
counter document, so an interleaving of three concurrent calls is a
permutation assigning each call its position in the store's serial order;
starting from an absent counter (value 0), the returned numbers are exactly
the set {1, 2, 3} under every interleaving — three returns onto a
three-element set also rules out any duplicate. -/
theorem next_invoice_number_concurrent (σ : Equiv.Perm (Fin 3)) :
    Finset.image
      (fun i => (next_invoice_number (counters_after none (σ i).val)).2)
      Finset.univ = ({1, 2, 3} : Finset Nat) := by
  have hval : (fun i : Fin 3 =>
      (next_invoice_number (counters_after none (σ i).val)).2) =
      (fun j : Fin 3 => j.val + 1) ∘ σ := by
    funext i
    exact invoice_seq_val (σ i).val
  rw [hval, ← Finset.image_image]
  have himg : Finset.image (⇑σ) Finset.univ = Finset.univ :=
    Finset.image_univ_equiv σ
  rw [himg]
  decide

/-- C10: _parse_allergies sets the flag iff the posted value is "on" or the
boolean True; when the flag is set the saved list is the input split on
commas and semicolons, trimmed, blanks dropped, deduplicated keeping
first-occurrence order (checked on the spec's example); when the flag is
clear the saved list is empty; and a non-empty saved list implies the flag
is set. -/
theorem parse_allergies_normalizes (v : HasAllergyVal) (raw : Option String) :
    parse_allergies (.vstr "on") (some "penicillin, latex; latex") =
      (true, ["penicillin", "latex"]) ∧
    ((parse_allergies v raw).1 = true →
      (parse_allergies v raw).2 = allergy_items (raw.getD "").data) ∧
    ((parse_allergies v raw).1 = false → (parse_allergies v raw).2 = []) ∧
    ((parse_allergies v raw).2 ≠ [] → (parse_allergies v raw).1 = true) := by
  refine ⟨rfl, ?_, ?_, ?_⟩ <;>
  · intro h
    by_cases hb : (v == .vstr "on" || v == .vbool true) = true <;>
      simp_all [parse_allergies]

/-- Witness for C10: the spec example plus a submission with the flag
absent, whose saved list is empty. -/
theorem parse_allergies_normalizes_witness :
    parse_allergies (.vstr "on") (some "penicillin, latex; latex") =
      (true, ["penicillin", "latex"]) ∧
    (parse_allergies .vnone (some "latex")).2 = [] :=
  ⟨(parse_allergies_normalizes .vnone (some "latex")).1,
   (parse_allergies_normalizes .vnone (some "latex")).2.2.1 rfl⟩
